import Mathlib

/-!
Verification of the backlink-audit dashboard's core pipeline against its
specification.  The Python sources are shallowly embedded: pure helpers become
Lean functions, the HTTP layer is modelled by explicit outcome values, the
retry decorator by a fuel-indexed recursion, the rate limiter by explicit
state passing over rational time, and the thread-pool fan-out by a write-slot
state machine driven by an arbitrary completion schedule.
-/

/-! ### JSON values

Parsed response bodies (the result of json.loads) are modelled by a small
inductive of JSON values.  Only the shapes the code inspects are needed:
objects (Python dicts with .get), numbers, strings, arrays, null. -/

inductive JsonVal where
  | num (n : Int)
  | str (s : String)
  | obj (fields : List (String × JsonVal))
  | arr (elems : List JsonVal)
  | null
deriving Repr

/-- Python dict.get(key, default) over the field list of a JSON object:
the value of the first binding of the key, or the default. -/
def dictGet (fields : List (String × JsonVal)) (key : String) (dflt : JsonVal) : JsonVal :=
  match fields.find? (fun p => p.1 = key) with
  | some p => p.2
  | none => dflt

/-! ### C2 / C9 · per-URL tier-2 statistics lookup

Embeds app.py's get_tier2_stats (lines 145-200).  The single HTTP exchange is
abstracted by an outcome value: either an exception was raised before a
response was read (connection/transport error), or a response with a status
code and a raw body arrived.  json.loads is abstracted by a parse function
returning none exactly when it raises JSONDecodeError. -/

inductive HttpOutcome where
  | exn
  | resp (status : Nat) (body : String)

/-- app.py get_tier2_stats: on a 200 response the body is parsed and the live
metric counts are read with stats.get('metrics', \x7b\x7d).get('live', 0) and
.get('live_refdomains', 0); every failure path (transport exception, non-200
status, JSON decode error, or a .get on a non-dict, which raises
AttributeError caught by the outer except) returns the pair (0, 0).  The
function is total: no failure escapes to the caller. -/
def get_tier2_stats (parse : String → Option JsonVal) (o : HttpOutcome) :
    JsonVal × JsonVal :=
  match o with
  | .exn => (.num 0, .num 0)
  | .resp status body =>
    if status = 200 then
      match parse body with
      | none => (.num 0, .num 0)
      | some stats =>
        match stats with
        | .obj fs =>
          match dictGet fs "metrics" (.obj []) with
          | .obj ms => (dictGet ms "live" (.num 0), dictGet ms "live_refdomains" (.num 0))
          | _ => (.num 0, .num 0)
        | _ => (.num 0, .num 0)
    else (.num 0, .num 0)

/-! ### C3 / C4 · HTTP request executor with retry

Embeds make_ahrefs_request (pages/1_Ahrefs_Analysis.py lines 48-72,
pages/2_Comparer_notre_domaine.py lines 64-103) under the tenacity decorator
retry(stop=stop_after_attempt(3), wait=wait_exponential(multiplier=1, min=4,
max=10)).  A single attempt either returns a parsed value or raises; the
raised errors are classified by kind: transport (connection/HTTP error),
apiStatus (non-2xx response, re-raised as an exception with the provider's
body), parse (json.loads failure on a 200 body).  tenacity's default retry
predicate retries on every exception, so all three kinds are retried alike;
after the third failed attempt the last exception is surfaced. -/

inductive ErrKind where
  | transport
  | apiStatus
  | parse
deriving DecidableEq, Repr

inductive AttemptResult (α : Type) where
  | ok (v : α)
  | err (e : ErrKind)

/-- Trace of one executor invocation: the final outcome, the number of
attempts actually made, and the list of delays slept between consecutive
attempts (in seconds). -/
structure RunTrace (α : Type) where
  result : Except ErrKind α
  attempts : Nat
  delays : List ℚ
deriving Repr

/-- tenacity wait_exponential(multiplier=1, min=4, max=10): the delay slept
after the k-th failed attempt is the exponential 2^k clamped into [4, 10].
(Under stop_after_attempt(3) only k = 1 and k = 2 are reachable, where both
conventions for the exponent's origin give the same clamped value, 4.) -/
def waitDelay (k : Nat) : ℚ := max 4 (min ((2 : ℚ) ^ k) 10)

/-- The retry loop: attempt k is taken from the attempt oracle f; on success
stop, on an exception either re-raise (no budget left) or sleep waitDelay k
and retry attempt k+1. -/
def runRetry (f : Nat → AttemptResult α) : Nat → Nat → RunTrace α
  | _, 0 => ⟨.error .transport, 0, []⟩
  | k, budget + 1 =>
    match f k with
    | .ok v => ⟨.ok v, 1, []⟩
    | .err e =>
      if budget = 0 then ⟨.error e, 1, []⟩
      else
        let t := runRetry f (k + 1) budget
        ⟨t.result, t.attempts + 1, waitDelay k :: t.delays⟩

/-- make_ahrefs_request: one logical request, up to 3 attempts. -/
def make_ahrefs_request (f : Nat → AttemptResult α) : RunTrace α :=
  runRetry f 1 3

/-- Attempt oracle whose first attempt raises a JSON parse failure and whose
later attempts succeed. -/
def c3Attempts : Nat → AttemptResult Nat :=
  fun k => if k = 1 then .err .parse else .ok 7

/-- Attempt oracle that fails with a transport error on every attempt. -/
def c4Attempts : Nat → AttemptResult Nat := fun _ => .err .transport

/-! ### C1 · tier-2 enrichment fan-out

Embeds analyze_tier2_links_parallel (pages/2_Comparer_notre_domaine.py lines
186-223): one future is submitted per source URL, in input order, into a
ThreadPoolExecutor; the result list is collected future-by-future in
submission order.  The pool is modelled as a write-slot state machine: a
result array with one slot per input index, and an arbitrary completion
schedule (the sequence of indices in the order their futures finish) that
fills the slots.  The collection step reads the slots in index order.  The
per-URL call (get_tier2_stats_cached, deterministic thanks to st.cache_data
memoisation) is a function from the URL to its enrichment result. -/

/-- One future completes: slot i receives the enrichment result for input
URL i.  (Out-of-range writes cannot arise from a real pool; List.set makes
them no-ops.) -/
def stepFill (urls : List String) (fetch : String → α)
    (slots : List (Option α)) (i : Nat) : List (Option α) :=
  slots.set i (some (fetch (urls.getD i "")))

/-- Run the pool to completion along a given completion schedule, starting
from an all-empty result array. -/
def runSchedule (urls : List String) (fetch : String → α) (schedule : List Nat) :
    List (Option α) :=
  schedule.foldl (stepFill urls fetch) (List.replicate urls.length none)

/-! ### C5 · rating (Domain Rating) bucketing

Embeds analyze_dr_distribution (app.py lines 24-41).  A record's rating
column value is an Option ℚ: pandas comparisons against a missing value (NaN)
are false, so a record with an absent rating matches no band, exactly like
the countP below. -/

structure DrRecord where
  url_from : String
  domain_rating_source : Option ℚ
deriving DecidableEq, Repr

/-- len(df[(df['domain_rating_source'] >= lo) & (df['domain_rating_source'] <= hi)]). -/
def drCount (records : List DrRecord) (lo hi : ℚ) : Nat :=
  records.countP (fun r =>
    match r.domain_rating_source with
    | some v => decide (lo ≤ v) && decide (v ≤ hi)
    | none => false)

/-- app.py analyze_dr_distribution: counts for the four bands
DR 0-29, DR 30-44, DR 45-59, DR 60-100 (both bounds inclusive). -/
def analyze_dr_distribution (records : List DrRecord) : Nat × Nat × Nat × Nat :=
  (drCount records 0 29, drCount records 30 44, drCount records 45 59,
   drCount records 60 100)

/-- Number of records whose rating attribute is present. -/
def presentCount (records : List DrRecord) : Nat :=
  records.countP (fun r => r.domain_rating_source.isSome)

/-- A record's rating, when present, is an integer within the bands' overall
range [0, 100]: its reduced denominator is 1 and its numerator lies in
[0, 100].  (Boolean, so concrete instances are checked by decide.) -/
def ratingIsBandedInt (r : DrRecord) : Bool :=
  match r.domain_rating_source with
  | none => true
  | some v => v.den == 1 && decide (0 ≤ v.num) && decide (v.num ≤ 100)

/-- How many of the four bands a given rating value falls into. -/
def bandHits (v : ℚ) : Nat :=
  (if 0 ≤ v ∧ v ≤ 29 then 1 else 0) + (if 30 ≤ v ∧ v ≤ 44 then 1 else 0) +
  (if 45 ≤ v ∧ v ≤ 59 then 1 else 0) + (if 60 ≤ v ∧ v ≤ 100 then 1 else 0)

/-- Contribution of one record to one band's count. -/
def bandIf (r : DrRecord) (lo hi : ℚ) : Nat :=
  match r.domain_rating_source with
  | some v => if lo ≤ v ∧ v ≤ hi then 1 else 0
  | none => 0

/-- A frame with a single record whose rating is fractional: 29.5. -/
def c5Frac : List DrRecord := [⟨"u", some (59 / 2)⟩]

/-! ### C6 · extremal metrics

Embeds get_max_metrics (app.py lines 96-116).  Ratings are required by the
flow to be present here (the column always exists in a bulk response), so the
record model carries a plain rational rating.  pandas Series.max() is the
maximum of the values; Series.idxmax() is documented to return the first
index attaining the maximum, embedded below as findIdx of the maximum. -/

structure MaxRecord where
  url_from : String
  domain_rating_source : ℚ
deriving DecidableEq, Repr

instance : Inhabited MaxRecord := ⟨⟨"", 0⟩⟩

/-- pandas Series.max() over a column (0 on the empty column, unused there by
the code which guards len(df) == 0). -/
def seriesMax : List ℚ → ℚ
  | [] => 0
  | a :: rest => rest.foldl max a

/-- pandas Series.idxmax(): the first position attaining the maximum. -/
def seriesIdxmax (l : List ℚ) : Nat := l.findIdx (fun x => x = seriesMax l)

/-- The 'max_tier' entry is the string 'N/A' on a non-empty frame and the
number 0 on an empty one; modelled by a small sum type. -/
inductive TierMetric where
  | num (q : ℚ)
  | na
deriving DecidableEq, Repr

structure MaxMetrics where
  max_dr : ℚ
  max_tier : TierMetric
  max_dr_url : String
  max_dr_value : ℚ
deriving DecidableEq, Repr

/-- app.py get_max_metrics: zero-valued metrics on an empty frame; otherwise
the column maximum together with the url_from at the idxmax row. -/
def get_max_metrics (records : List MaxRecord) : MaxMetrics :=
  if records.isEmpty then ⟨0, .num 0, "", 0⟩
  else
    let drs := records.map (fun r => r.domain_rating_source)
    let i := seriesIdxmax drs
    ⟨seriesMax drs, .na, (records.getD i default).url_from,
     (records.getD i default).domain_rating_source⟩

/-- The spec's worked example: records a/10 and b/90. -/
def c6Example : List MaxRecord := [⟨"a", 10⟩, ⟨"b", 90⟩]

/-! ### C7 · rate limiter

Embeds RateLimiter.wait (pages/2_Comparer_notre_domaine.py lines 42-61; the
variant in pages/1_Ahrefs_Analysis.py lines 27-44 is identical minus the
lock).  Time is rational (seconds).  The body of wait() runs under a lock, so
concurrent acquisitions serialise: the model is the serialised sequence of
wait() executions, each starting the moment the previous one released the
lock.  Each execution reads now = datetime.now() once at entry, prunes
timestamps a full second old, sleeps the remainder of the oldest entry's
second when at capacity, and then appends now — the ENTRY time, not the
post-sleep time, exactly as the source does. -/

/-- self.requests = [req for req in self.requests if now - req < 1]. -/
def pruneReqs (now : ℚ) (reqs : List ℚ) : List ℚ :=
  reqs.filter (fun r => now - r < 1)

/-- One execution of RateLimiter.wait entered at time now with timestamp list
reqs: returns the time at which wait() returns (the call's start time) and
the updated timestamp list. -/
def rlWait (cap : Nat) (now : ℚ) (reqs : List ℚ) : ℚ × List ℚ :=
  let rs := pruneReqs now reqs
  let ret :=
    if cap ≤ rs.length then
      let sleepTime := 1 - (now - rs.headD 0)
      if 0 < sleepTime then now + sleepTime else now
    else now
  (ret, rs ++ [now])

/-- k back-to-back acquisitions: each wait() execution is entered at the time
the previous one returned (callers are queued on the lock, all having issued
their calls at time 0).  Returns the list of call start times. -/
def rlRun (cap : Nat) : Nat → ℚ → List ℚ → List ℚ
  | 0, _, _ => []
  | k + 1, now, reqs =>
    let (t, reqs') := rlWait cap now reqs
    t :: rlRun cap k t reqs'

/-- Start times of k calls that all arrive at time 0 at a fresh limiter. -/
def rlStartTimes (cap k : Nat) : List ℚ := rlRun cap k 0 []

/-- Scenario for C7: eleven calls all issued at time 0 against a fresh
limiter with the default cap of 5 requests per second. -/
def c7Starts : List ℚ := rlStartTimes 5 11

/-! ### C8 · target URL encoding for the bulk backlink fetch

Two variants exist.  app.py get_backlinks (lines 202-222) and
pages/1_Ahrefs_Analysis.py get_backlinks_cached encode the target with
target_url.replace(':', '%3A').replace('/', '%2F').
pages/2_Comparer_notre_domaine.py get_backlinks_cached (lines 105-139)
instead encodes with encode_url_for_ahrefs (lines 22-32): strip whitespace,
prepend https:// when no scheme, then urllib.parse.quote(url, safe=''). -/

/-- Python str.replace with a single-character needle: every occurrence of
the character is replaced by the given string. -/
def pyReplace (s : List Char) (c : Char) (r : List Char) : List Char :=
  s.flatMap (fun x => if x = c then r else [x])

/-- The replace-encoding used by app.py's bulk fetch:
target_url.replace(':', '%3A').replace('/', '%2F'). -/
def ahrefsEncode (s : String) : String :=
  ⟨pyReplace (pyReplace s.data ':' "%3A".data) '/' "%2F".data⟩

/-- The claim's wording, as a definition: every ':' becomes '%3A', every '/'
becomes '%2F', and every other character is kept unaltered (refinement
reference, written from the spec sentence, for comparison with ahrefsEncode). -/
def specEncode (s : String) : String :=
  ⟨s.data.flatMap (fun c =>
    if c = ':' then "%3A".data else if c = '/' then "%2F".data else [c])⟩

/-- Uppercase hex digit of a value below 16. -/
def hexDigit (n : Nat) : Char :=
  if n < 10 then Char.ofNat ('0'.toNat + n) else Char.ofNat ('A'.toNat + n - 10)

/-- UTF-8 bytes of a character (as Nats below 256). -/
def utf8Bytes (c : Char) : List Nat :=
  let n := c.toNat
  if n < 128 then [n]
  else if n < 2048 then [192 + n / 64, 128 + n % 64]
  else if n < 65536 then [224 + n / 4096, 128 + n / 64 % 64, 128 + n % 64]
  else [240 + n / 262144, 128 + n / 4096 % 64, 128 + n / 64 % 64, 128 + n % 64]

/-- Percent-encoding %XX of one byte. -/
def pctByte (b : Nat) : List Char := ['%', hexDigit (b / 16), hexDigit (b % 16)]

/-- urllib.parse.quote(s, safe=''): ASCII letters, digits and '_.-~' pass
through; every other character is percent-encoded byte by byte. -/
def pyQuote (s : String) : String :=
  ⟨s.data.flatMap (fun c =>
    if c.isAlphanum || c = '-' || c = '.' || c = '_' || c = '~' then [c]
    else (utf8Bytes c).flatMap pctByte)⟩

/-- Python str.strip(): drop leading and trailing whitespace. -/
def pyStrip (s : String) : String :=
  ⟨((s.data.dropWhile Char.isWhitespace).reverse.dropWhile Char.isWhitespace).reverse⟩

/-- pages/2_Comparer_notre_domaine.py encode_url_for_ahrefs: strip, default
the scheme to https://, then fully percent-encode. -/
def encode_url_for_ahrefs (url : String) : String :=
  let u := pyStrip url
  let u2 :=
    if "http://".data.isPrefixOf u.data || "https://".data.isPrefixOf u.data
    then u else ⟨"https://".data ++ u.data⟩
  pyQuote u2

/-! ### C10 · yearly distribution and aggregator state effects

Embeds analyze_yearly_distribution (app.py lines 43-63).  A pandas DataFrame
is modelled as a frame of parallel columns; the statement
df['year'] = pd.to_datetime(df['first_seen']).dt.year mutates the frame in
place, so the embedding passes the frame state explicitly and returns the
updated frame alongside the result.  A parsed first_seen date is modelled by
its calendar year plus the remaining date information; .dt.year is the year
projection. -/

structure PDate where
  year : Int
  dayOfYear : Nat
deriving DecidableEq, Repr

structure TFrame where
  url_from : List String
  domain_rating_source : List ℚ
  first_seen : List PDate
  year : Option (List Int)
deriving DecidableEq, Repr

structure YearlyRow where
  annee : Int
  liens : Nat
  cumules : Nat
deriving DecidableEq, Repr

/-- Insert into an ascending list (insertion-sort step). -/
def insSorted (y : Int) : List Int → List Int
  | [] => [y]
  | a :: rest => if y ≤ a then y :: a :: rest else a :: insSorted y rest

/-- Ascending sort of the year multiset. -/
def sortInts (l : List Int) : List Int := l.foldr insSorted []

/-- pandas value_counts().sort_index(): per-year counts, years ascending. -/
def yearlyCounts (ys : List Int) : List (Int × Nat) :=
  ((sortInts ys).dedup).map (fun y => (y, ys.count y))

/-- pandas cumsum() over the counts column. -/
def cumFrom (acc : Nat) : List Nat → List Nat
  | [] => []
  | n :: rest => (acc + n) :: cumFrom (acc + n) rest

/-- app.py analyze_yearly_distribution: writes the derived year column into
the input frame (the in-place df['year'] = ... assignment), then builds the
per-year count table with its cumulative sums, ordered by ascending year
(value_counts().sort_index() is ascending and the final
sort_values('Année') keeps that order). -/
def analyze_yearly_distribution (df : TFrame) : List YearlyRow × TFrame :=
  let yrs := df.first_seen.map PDate.year
  let df' : TFrame := { df with year := some yrs }
  let counts := yearlyCounts yrs
  let cums := cumFrom 0 (counts.map Prod.snd)
  (List.zipWith (fun p c => ⟨p.1, p.2, c⟩) counts cums, df')

/-- A one-record frame, not yet carrying the derived year column. -/
def c10Example : TFrame := ⟨["u"], [50], [⟨2020, 1⟩], none⟩

/-- pages/1_Ahrefs_Analysis.py get_tier2_stats_cached (lines 95-116): the
executor's outcome after retries is an Except; on any exception the
surrounding try/except returns (0, 0), and on success the live metrics are
read with .get defaults (a .get on a non-dict raises AttributeError, also
caught by the except, hence the fallback branches). -/
def get_tier2_stats_cached (resp : Except ErrKind JsonVal) : JsonVal × JsonVal :=
  match resp with
  | .error _ => (.num 0, .num 0)
  | .ok stats =>
    match stats with
    | .obj fs =>
      match dictGet fs "metrics" (.obj []) with
      | .obj ms => (dictGet ms "live" (.num 0), dictGet ms "live_refdomains" (.num 0))
      | _ => (.num 0, .num 0)
    | _ => (.num 0, .num 0)

/-! ## Theorems -/

/-! ### C1 -/

theorem runFill_length (urls : List String) (fetch : String → α) :
    ∀ (sch : List Nat) (init : List (Option α)),
      (sch.foldl (stepFill urls fetch) init).length = init.length := by
  intro sch
  induction sch with
  | nil => intro init; rfl
  | cons i rest ih =>
    intro init
    simp only [List.foldl_cons]
    rw [ih]
    simp [stepFill]

theorem runFill_getElem (urls : List String) (fetch : String → α) :
    ∀ (sch : List Nat) (init : List (Option α)) (j : Nat), j < init.length →
      (sch.foldl (stepFill urls fetch) init)[j]? =
        if j ∈ sch then some (some (fetch (urls.getD j ""))) else init[j]? := by
  intro sch
  induction sch with
  | nil => intro init j _; simp
  | cons i rest ih =>
    intro init j hj
    simp only [List.foldl_cons]
    rw [ih (stepFill urls fetch init i) j (by simpa [stepFill] using hj)]
    by_cases hjr : j ∈ rest
    · simp [hjr]
    · by_cases hij : i = j
      · subst hij
        simp [hjr, stepFill, List.getElem?_set, hj]
      · have hji : ¬ j = i := fun h => hij h.symm
        have hmem : j ∉ i :: rest := by simp [hji, hjr]
        rw [if_neg hjr, if_neg hmem]
        simp [stepFill, List.getElem?_set, hij, hji]

/-- Claim C1: for every input list of source URLs given to the tier-2
enrichment batch, the output list of per-URL enrichment results has the same
length as the input, and the output at index i is the enrichment result for
the URL at input index i, for EVERY completion schedule that finishes all
submitted futures — i.e. regardless of the completion order of the concurrent
per-URL calls. -/
theorem c1_enrichment_order_independent (urls : List String) (fetch : String → α)
    (schedule : List Nat) (hcov : ∀ i, i < urls.length → i ∈ schedule) :
    (runSchedule urls fetch schedule).length = urls.length ∧
    runSchedule urls fetch schedule = urls.map (fun u => some (fetch u)) := by
  have hlen : (runSchedule urls fetch schedule).length = urls.length := by
    simpa [runSchedule] using
      runFill_length urls fetch schedule (List.replicate urls.length none)
  refine ⟨hlen, ?_⟩
  apply List.ext_getElem?
  intro j
  by_cases hj : j < urls.length
  · have h := runFill_getElem urls fetch schedule (List.replicate urls.length none) j
      (by simpa using hj)
    rw [runSchedule, h, if_pos (hcov j hj)]
    have hg : urls.getD j "" = urls[j] := by
      simp [List.getD_eq_getElem?_getD, List.getElem?_eq_getElem hj]
    simp [hg, List.getElem?_map, List.getElem?_eq_getElem hj]
  · have h1 : (runSchedule urls fetch schedule)[j]? = none := by
      apply List.getElem?_eq_none
      omega
    have h2 : (urls.map (fun u => some (fetch u)))[j]? = none := by
      apply List.getElem?_eq_none
      simpa using Nat.le_of_not_lt hj
    rw [h1, h2]

/-- Witness for C1: three URLs, futures completing in the order 2, 0, 1. -/
theorem c1_enrichment_order_independent_witness :
    (runSchedule ["a", "bb", "ccc"] (fun u => some (u.length, 7)) [2, 0, 1]).length = 3 ∧
    runSchedule ["a", "bb", "ccc"] (fun u => some (u.length, 7)) [2, 0, 1] =
      ["a", "bb", "ccc"].map (fun u => some (some (u.length, 7))) := by
  have h := c1_enrichment_order_independent ["a", "bb", "ccc"]
    (fun u => some (u.length, 7)) [2, 0, 1] (by decide)
  simpa using h

/-! ### C2 -/

/-- Claim C2: every failing tier-2 statistics lookup — transport exception,
non-2xx response, unparsable body, or a response without the metrics object —
yields the pair (0, 0), in both the direct variant (app.py get_tier2_stats)
and the cached variant (pages/1_Ahrefs_Analysis.py get_tier2_stats_cached,
whose failures arrive as the executor's Except error).  Both embeddings are
total functions into plain pairs, so no failure ever escapes to the batch
caller. -/
theorem c2_per_url_failure_zero (parse : String → Option JsonVal) (o : HttpOutcome)
    (resp : Except ErrKind JsonVal)
    (ho : o = .exn
        ∨ (∃ s b, o = .resp s b ∧ s ≠ 200)
        ∨ (∃ b, o = .resp 200 b ∧ parse b = none)
        ∨ (∃ b fs, o = .resp 200 b ∧ parse b = some (.obj fs) ∧
             dictGet fs "metrics" (.obj []) = .obj []))
    (hr : ∃ e, resp = .error e) :
    get_tier2_stats parse o = (.num 0, .num 0) ∧
    get_tier2_stats_cached resp = (.num 0, .num 0) := by
  constructor
  · rcases ho with h | ⟨s, b, h, hs⟩ | ⟨b, h, hp⟩ | ⟨b, fs, h, hp, hm⟩
    · subst h; rfl
    · subst h; simp [get_tier2_stats, hs]
    · subst h; simp [get_tier2_stats, hp]
    · subst h
      simp only [get_tier2_stats, if_pos rfl, hp, hm]
      rfl
  · rcases hr with ⟨e, he⟩
    subst he; rfl

/-- Witness for C2: a transport exception on the direct path and an
exhausted-retries parse error on the cached path. -/
theorem c2_per_url_failure_zero_witness :
    get_tier2_stats (fun _ => none) .exn = (.num 0, .num 0) ∧
    get_tier2_stats_cached (.error .parse) = (.num 0, .num 0) :=
  c2_per_url_failure_zero (fun _ => none) .exn (.error .parse)
    (Or.inl rfl) ⟨.parse, rfl⟩

/-! ### C9 -/

/-- Claim C9 (code_bug evaluation): the claim says an absent enrichment field
is never represented as numeric zero, but reading a well-formed 200 response
whose JSON object omits the metrics entirely (an empty object) makes
get_tier2_stats substitute the numeric value 0 for both tier-2 fields — the
silently-absent-field behaviour the spec's design notes say the data model
must prevent. -/
theorem c9_missing_field_zero :
    get_tier2_stats (fun _ => some (.obj [])) (.resp 200 "ok-body") =
      (.num 0, .num 0) := rfl

/-! ### C3 -/

/-- Counterexample to C3: the claim says a parse failure is not retried and
is surfaced immediately after the single attempt; but with a parse failure on
attempt 1 the executor makes a second attempt (tenacity's default predicate
retries every exception) and returns that attempt's success instead of
surfacing the parse failure. -/
theorem c3_parse_failure_retried_counterexample :
    (make_ahrefs_request c3Attempts).attempts = 2 ∧
    (make_ahrefs_request c3Attempts).result = .ok 7 ∧
    (make_ahrefs_request c3Attempts).result ≠ .error .parse := by
  have hres : (make_ahrefs_request c3Attempts).result = .ok 7 := rfl
  refine ⟨rfl, hres, ?_⟩
  rw [hres]
  intro h
  exact Except.noConfusion h

/-- Claim C3 as amended: a parse failure is an exception like any other, so
the executor retries it under the same bounded policy (up to 3 attempts in
total); when every attempt parse-fails, the failure surfaced after the third
attempt is still the parse kind, which remains distinct from the transport
kind. -/
theorem c3_parse_failure_amended (f : Nat → AttemptResult α)
    (h1 : f 1 = .err .parse) (h2 : f 2 = .err .parse) (h3 : f 3 = .err .parse) :
    (make_ahrefs_request f).result = .error .parse ∧
    (make_ahrefs_request f).attempts = 3 ∧
    ErrKind.parse ≠ ErrKind.transport := by
  refine ⟨?_, ?_, by simp⟩ <;>
    simp [make_ahrefs_request, runRetry, h1, h2, h3]

/-- Witness for the amended C3: every attempt parse-fails. -/
theorem c3_parse_failure_amended_witness :
    (make_ahrefs_request (fun _ => (.err .parse : AttemptResult Nat))).result =
      .error .parse ∧
    (make_ahrefs_request (fun _ => (.err .parse : AttemptResult Nat))).attempts = 3 ∧
    ErrKind.parse ≠ ErrKind.transport :=
  c3_parse_failure_amended (fun _ => .err .parse) rfl rfl rfl

/-! ### C4 -/

/-- Counterexample to C4: the claim says the backoff delay starts at 4
seconds and DOUBLES on each subsequent retry, which for a run exhausting the
3 attempts predicts the delay sequence [4, 8]; the actual delays are [4, 4],
because wait_exponential's raw exponential (2 and 4 seconds here) is clamped
from below by min=4 on both retries. -/
theorem c4_backoff_counterexample :
    (make_ahrefs_request c4Attempts).delays = [4, 4] ∧
    (make_ahrefs_request c4Attempts).delays ≠ [4, 8] := by
  have h : (make_ahrefs_request c4Attempts).delays = [4, 4] := by
    simp [make_ahrefs_request, runRetry, c4Attempts, waitDelay]
    norm_num
  refine ⟨h, ?_⟩
  rw [h]
  simp

/-- Claim C4 as amended: on persistent failure the executor makes exactly 3
attempts (and never more than 3 on any input), waits between consecutive
attempts with wait_exponential(multiplier=1, min=4, max=10) — the exponential
2^k clamped into [4, 10], which under the 3-attempt bound yields the delays
4 s and 4 s — and fails permanently surfacing the last attempt's error. -/
theorem c4_retry_policy_amended (f g : Nat → AttemptResult α) (e1 e2 e3 : ErrKind)
    (h1 : f 1 = .err e1) (h2 : f 2 = .err e2) (h3 : f 3 = .err e3) :
    (make_ahrefs_request f).result = .error e3 ∧
    (make_ahrefs_request f).attempts = 3 ∧
    (make_ahrefs_request f).delays = [waitDelay 1, waitDelay 2] ∧
    (make_ahrefs_request f).delays = [4, 4] ∧
    (make_ahrefs_request g).attempts ≤ 3 := by
  have hd1 : waitDelay 1 = 4 := by simp [waitDelay]; norm_num
  have hd2 : waitDelay 2 = 4 := by simp [waitDelay]; norm_num
  refine ⟨?_, ?_, ?_, ?_, ?_⟩
  · simp [make_ahrefs_request, runRetry, h1, h2, h3]
  · simp [make_ahrefs_request, runRetry, h1, h2, h3]
  · simp [make_ahrefs_request, runRetry, h1, h2, h3]
  · simp [make_ahrefs_request, runRetry, h1, h2, h3, hd1, hd2]
  · simp only [make_ahrefs_request, runRetry]
    rcases g 1 with v | e
    · simp
    · rcases g 2 with v | e
      · simp
      · rcases g 3 with v | e <;> simp

/-- Witness for the amended C4: transport failure on every attempt. -/
theorem c4_retry_policy_amended_witness :
    (make_ahrefs_request c4Attempts).result = .error .transport ∧
    (make_ahrefs_request c4Attempts).attempts = 3 ∧
    (make_ahrefs_request c4Attempts).delays = [waitDelay 1, waitDelay 2] ∧
    (make_ahrefs_request c4Attempts).delays = [4, 4] ∧
    (make_ahrefs_request c4Attempts).attempts ≤ 3 :=
  c4_retry_policy_amended c4Attempts c4Attempts .transport .transport .transport
    rfl rfl rfl

/-! ### C5 -/

theorem drCount_cons (r : DrRecord) (rest : List DrRecord) (lo hi : ℚ) :
    drCount (r :: rest) lo hi = drCount rest lo hi + bandIf r lo hi := by
  simp only [drCount, List.countP_cons, bandIf]
  cases hv : r.domain_rating_source with
  | none => simp
  | some v => simp [Bool.and_eq_true, decide_eq_true_eq]

theorem presentCount_cons (r : DrRecord) (rest : List DrRecord) :
    presentCount (r :: rest) =
      presentCount rest + (if r.domain_rating_source.isSome then 1 else 0) := by
  simp [presentCount, List.countP_cons]

theorem bandHits_intCast (n : ℤ) (h0 : 0 ≤ n) (h100 : n ≤ 100) :
    bandHits (n : ℚ) = 1 := by
  have k0 : ((0 : ℚ) ≤ (n : ℚ)) ↔ 0 ≤ n := by exact_mod_cast Iff.rfl
  have k29 : ((n : ℚ) ≤ 29) ↔ n ≤ 29 := by exact_mod_cast Iff.rfl
  have k30 : ((30 : ℚ) ≤ (n : ℚ)) ↔ 30 ≤ n := by exact_mod_cast Iff.rfl
  have k44 : ((n : ℚ) ≤ 44) ↔ n ≤ 44 := by exact_mod_cast Iff.rfl
  have k45 : ((45 : ℚ) ≤ (n : ℚ)) ↔ 45 ≤ n := by exact_mod_cast Iff.rfl
  have k59 : ((n : ℚ) ≤ 59) ↔ n ≤ 59 := by exact_mod_cast Iff.rfl
  have k60 : ((60 : ℚ) ≤ (n : ℚ)) ↔ 60 ≤ n := by exact_mod_cast Iff.rfl
  have k100 : ((n : ℚ) ≤ 100) ↔ n ≤ 100 := by exact_mod_cast Iff.rfl
  simp only [bandHits, k0, k29, k30, k44, k45, k59, k60, k100]
  split_ifs <;> omega

theorem bandIf_sum (r : DrRecord) (h : ratingIsBandedInt r = true) :
    bandIf r 0 29 + bandIf r 30 44 + bandIf r 45 59 + bandIf r 60 100 =
      (if r.domain_rating_source.isSome then 1 else 0) := by
  cases hv : r.domain_rating_source with
  | none => simp [bandIf, hv]
  | some v =>
    simp only [ratingIsBandedInt, hv, Bool.and_eq_true, beq_iff_eq,
      decide_eq_true_eq] at h
    obtain ⟨⟨hden, h0⟩, h100⟩ := h
    have hcast : ((v.num : ℤ) : ℚ) = v := Rat.coe_int_num_of_den_eq_one hden
    have hb : bandHits v = 1 := by
      have := bandHits_intCast v.num h0 h100
      rwa [hcast] at this
    simp only [bandHits] at hb
    simpa [bandIf, hv] using hb

/-- Counterexample to C5: a record with the numeric rating 29.5 is placed in
NO band (29.5 exceeds 29 but is below 30), so the four band counts sum to 0
while one record has a present rating — the claim's exactly-one-band and
count-sum properties both fail on it. -/
theorem c5_bucketing_counterexample :
    presentCount c5Frac = 1 ∧
    analyze_dr_distribution c5Frac = (0, 0, 0, 0) ∧
    (analyze_dr_distribution c5Frac).1 + (analyze_dr_distribution c5Frac).2.1 +
        (analyze_dr_distribution c5Frac).2.2.1 +
        (analyze_dr_distribution c5Frac).2.2.2 ≠ presentCount c5Frac := by
  have h1 : drCount c5Frac 0 29 = 0 := by
    norm_num [drCount, c5Frac, List.countP_cons]
  have h2 : drCount c5Frac 30 44 = 0 := by
    norm_num [drCount, c5Frac, List.countP_cons]
  have h3 : drCount c5Frac 45 59 = 0 := by
    norm_num [drCount, c5Frac, List.countP_cons]
  have h4 : drCount c5Frac 60 100 = 0 := by
    norm_num [drCount, c5Frac, List.countP_cons]
  have hd : analyze_dr_distribution c5Frac = (0, 0, 0, 0) := by
    simp [analyze_dr_distribution, h1, h2, h3, h4]
  have hp : presentCount c5Frac = 1 := rfl
  refine ⟨hp, hd, ?_⟩
  rw [hd, hp]
  decide

/-- Claim C5 as amended: for records whose present ratings are integers
within the bands' overall range [0, 100], each record with a present rating
falls into exactly one of the four bands, and the four band counts of
analyze_dr_distribution sum to the number of records with a present rating. -/
theorem c5_bucketing_amended (records : List DrRecord)
    (h : ∀ r ∈ records, ratingIsBandedInt r = true) :
    (∀ r ∈ records, ∀ v, r.domain_rating_source = some v → bandHits v = 1) ∧
    (analyze_dr_distribution records).1 + (analyze_dr_distribution records).2.1 +
        (analyze_dr_distribution records).2.2.1 +
        (analyze_dr_distribution records).2.2.2 = presentCount records := by
  constructor
  · intro r hr v hv
    have hb := bandIf_sum r (h r hr)
    rw [hv] at hb
    simpa [bandIf, hv, bandHits] using hb
  · simp only [analyze_dr_distribution]
    induction records with
    | nil => rfl
    | cons r rest ih =>
      have hr := h r (List.mem_cons_self r rest)
      have hrest : ∀ x ∈ rest, ratingIsBandedInt x = true :=
        fun x hx => h x (List.mem_cons_of_mem r hx)
      have hsum := bandIf_sum r hr
      have ihs := ih hrest
      rw [drCount_cons, drCount_cons, drCount_cons, drCount_cons,
        presentCount_cons]
      omega

/-- Witness for the amended C5: the spec's own example ratings 5, 35, 50, 70
give band counts 1, 1, 1, 1 summing to the 4 present ratings. -/
theorem c5_bucketing_amended_witness :
    (∀ r ∈ [(⟨"a", some 5⟩ : DrRecord), ⟨"b", some 35⟩, ⟨"c", some 50⟩,
        ⟨"d", some 70⟩], ∀ v, r.domain_rating_source = some v → bandHits v = 1) ∧
    (analyze_dr_distribution [(⟨"a", some 5⟩ : DrRecord), ⟨"b", some 35⟩,
          ⟨"c", some 50⟩, ⟨"d", some 70⟩]).1 +
        (analyze_dr_distribution [(⟨"a", some 5⟩ : DrRecord), ⟨"b", some 35⟩,
          ⟨"c", some 50⟩, ⟨"d", some 70⟩]).2.1 +
        (analyze_dr_distribution [(⟨"a", some 5⟩ : DrRecord), ⟨"b", some 35⟩,
          ⟨"c", some 50⟩, ⟨"d", some 70⟩]).2.2.1 +
        (analyze_dr_distribution [(⟨"a", some 5⟩ : DrRecord), ⟨"b", some 35⟩,
          ⟨"c", some 50⟩, ⟨"d", some 70⟩]).2.2.2 =
      presentCount [(⟨"a", some 5⟩ : DrRecord), ⟨"b", some 35⟩, ⟨"c", some 50⟩,
        ⟨"d", some 70⟩] :=
  c5_bucketing_amended
    [⟨"a", some 5⟩, ⟨"b", some 35⟩, ⟨"c", some 50⟩, ⟨"d", some 70⟩] (by decide)

/-! ### C6 -/

theorem foldl_max_mem (l : List ℚ) (a : ℚ) : l.foldl max a ∈ a :: l := by
  induction l generalizing a with
  | nil => simp
  | cons b t ih =>
    rw [List.foldl_cons]
    rcases List.mem_cons.mp (ih (max a b)) with h | h
    · rw [h]
      rcases max_choice a b with hm | hm <;> rw [hm] <;> simp
    · exact List.mem_cons_of_mem _ (List.mem_cons_of_mem _ h)

theorem le_foldl_max (l : List ℚ) (a : ℚ) : ∀ x ∈ a :: l, x ≤ l.foldl max a := by
  induction l generalizing a with
  | nil =>
    intro x hx
    simp only [List.mem_singleton] at hx
    simp [hx]
  | cons b t ih =>
    intro x hx
    rw [List.foldl_cons]
    have hle := ih (max a b)
    rcases List.mem_cons.mp hx with h | h
    · subst h
      exact le_trans (le_max_left x b) (hle _ (List.mem_cons_self _ _))
    · rcases List.mem_cons.mp h with h | h
      · subst h
        exact le_trans (le_max_right a x) (hle _ (List.mem_cons_self _ _))
      · exact hle x (List.mem_cons_of_mem _ h)

theorem seriesMax_mem (l : List ℚ) (h : l ≠ []) : seriesMax l ∈ l := by
  cases l with
  | nil => exact absurd rfl h
  | cons a t => simpa [seriesMax] using foldl_max_mem t a

theorem le_seriesMax (l : List ℚ) : ∀ x ∈ l, x ≤ seriesMax l := by
  cases l with
  | nil => intro x hx; simp at hx
  | cons a t => intro x hx; exact le_foldl_max t a x hx

theorem get_max_metrics_ne_nil (records : List MaxRecord) (h : records ≠ []) :
    get_max_metrics records =
      ⟨seriesMax (records.map fun r => r.domain_rating_source), .na,
       (records.getD (seriesIdxmax (records.map fun r => r.domain_rating_source))
          default).url_from,
       (records.getD (seriesIdxmax (records.map fun r => r.domain_rating_source))
          default).domain_rating_source⟩ := by
  have he : records.isEmpty = false := List.isEmpty_eq_false.mpr h
  simp [get_max_metrics, he]

/-- Claim C6: get_max_metrics on an empty record set returns zero-valued
metrics without failing; on a non-empty set it returns the maximum rating
over all records together with the source URL of the record achieving that
maximum, ties broken by the first occurrence in input order (the reported
index i attains the maximum and every earlier index is strictly below it). -/
theorem c6_extremal_metrics (records : List MaxRecord) :
    (records = [] → get_max_metrics records = ⟨0, .num 0, "", 0⟩) ∧
    (records ≠ [] →
      ∃ i, ∃ hi : i < records.length,
        (∀ r ∈ records, r.domain_rating_source ≤ (get_max_metrics records).max_dr) ∧
        (records.get ⟨i, hi⟩).domain_rating_source =
          (get_max_metrics records).max_dr ∧
        (get_max_metrics records).max_dr_url = (records.get ⟨i, hi⟩).url_from ∧
        (get_max_metrics records).max_dr_value =
          (records.get ⟨i, hi⟩).domain_rating_source ∧
        (∀ j, ∀ hj : j < records.length, j < i →
          (records.get ⟨j, hj⟩).domain_rating_source <
            (get_max_metrics records).max_dr)) := by
  constructor
  · intro h; subst h; rfl
  · intro h
    have hdne : records.map (fun r => r.domain_rating_source) ≠ [] := by
      simpa using h
    have hmem : seriesMax (records.map fun r => r.domain_rating_source) ∈
        records.map (fun r => r.domain_rating_source) :=
      seriesMax_mem _ hdne
    have hex : ∃ x ∈ records.map (fun r => r.domain_rating_source),
        decide (x = seriesMax (records.map fun r => r.domain_rating_source)) =
          true := ⟨_, hmem, by simp⟩
    have hilt : seriesIdxmax (records.map fun r => r.domain_rating_source) <
        (records.map fun r => r.domain_rating_source).length := by
      simpa [seriesIdxmax] using List.findIdx_lt_length_of_exists hex
    have hlen : (records.map fun r => r.domain_rating_source).length =
        records.length := List.length_map _ _
    have hi : seriesIdxmax (records.map fun r => r.domain_rating_source) <
        records.length := hlen ▸ hilt
    have hattain :
        (records.map fun r => r.domain_rating_source)[seriesIdxmax
            (records.map fun r => r.domain_rating_source)] =
          seriesMax (records.map fun r => r.domain_rating_source) := by
      have := @List.findIdx_getElem _
        (fun x => decide (x = seriesMax (records.map fun r => r.domain_rating_source)))
        (records.map fun r => r.domain_rating_source)
        (by simpa [seriesIdxmax] using hilt)
      simpa [seriesIdxmax] using this
    have hgetmap :
        (records.map fun r => r.domain_rating_source)[seriesIdxmax
            (records.map fun r => r.domain_rating_source)] =
          (records.get ⟨seriesIdxmax (records.map fun r => r.domain_rating_source),
            hi⟩).domain_rating_source := by
      simp [List.get_eq_getElem, List.getElem_map]
    have hgetD :
        records.getD (seriesIdxmax (records.map fun r => r.domain_rating_source))
            default =
          records.get ⟨seriesIdxmax (records.map fun r => r.domain_rating_source),
            hi⟩ := by
      simp [List.get_eq_getElem, List.getD_eq_getElem?_getD,
        List.getElem?_eq_getElem hi]
    refine ⟨seriesIdxmax (records.map fun r => r.domain_rating_source), hi,
      ?_, ?_, ?_, ?_, ?_⟩
    · intro r hr
      rw [get_max_metrics_ne_nil records h]
      exact le_seriesMax _ _ (List.mem_map_of_mem _ hr)
    · rw [get_max_metrics_ne_nil records h]
      simpa [List.get_eq_getElem, hgetmap] using hattain
    · rw [get_max_metrics_ne_nil records h]
      simp [List.get_eq_getElem, List.getElem?_eq_getElem hi]
    · rw [get_max_metrics_ne_nil records h]
      simp [List.get_eq_getElem, List.getElem?_eq_getElem hi]
    · intro j hj hlt
      rw [get_max_metrics_ne_nil records h]
      have hmapj : j < (records.map fun r => r.domain_rating_source).length := by
        rwa [hlen]
      have hne := @List.not_of_lt_findIdx _
        (fun x => decide (x = seriesMax (records.map fun r => r.domain_rating_source)))
        (records.map fun r => r.domain_rating_source) j
        (by simpa [seriesIdxmax] using hlt)
      have hjle : (records.map fun r => r.domain_rating_source)[j] ≤
          seriesMax (records.map fun r => r.domain_rating_source) :=
        le_seriesMax _ _ (List.getElem_mem hmapj)
      have hjne : (records.map fun r => r.domain_rating_source)[j] ≠
          seriesMax (records.map fun r => r.domain_rating_source) := by
        simpa using hne
      have hjlt := lt_of_le_of_ne hjle hjne
      simpa [List.get_eq_getElem, List.getElem_map] using hjlt

/-- Witness for C6: the non-empty branch of the claim applied to the spec's
example input. -/
theorem c6_extremal_metrics_witness :
    ∃ i, ∃ hi : i < c6Example.length,
      (∀ r ∈ c6Example, r.domain_rating_source ≤ (get_max_metrics c6Example).max_dr) ∧
      (c6Example.get ⟨i, hi⟩).domain_rating_source =
        (get_max_metrics c6Example).max_dr ∧
      (get_max_metrics c6Example).max_dr_url = (c6Example.get ⟨i, hi⟩).url_from ∧
      (get_max_metrics c6Example).max_dr_value =
        (c6Example.get ⟨i, hi⟩).domain_rating_source ∧
      (∀ j, ∀ hj : j < c6Example.length, j < i →
        (c6Example.get ⟨j, hj⟩).domain_rating_source <
          (get_max_metrics c6Example).max_dr) :=
  (c6_extremal_metrics c6Example).2 (List.cons_ne_nil _ _)

/-! ### C7 -/

/-- Claim C7 (code_bug evaluation): with cap N = 5, eleven back-to-back
acquisitions start at times [0,0,0,0,0,1,1,1,1,1,1]: after call 6 sleeps out
the window, wait() records call 6's stale pre-sleep timestamp, which the next
acquisition immediately prunes, so calls 6-11 all start at time 1 — six calls
within one second, and call 11 starts 1 second after call 1 although the
claimed bound requires at least (11-5)/5 = 1.2 seconds. -/
theorem c7_rate_limiter_bound_violated :
    c7Starts = [0, 0, 0, 0, 0, 1, 1, 1, 1, 1, 1] ∧
    ¬ ((11 - 5 : ℚ) / 5 ≤ c7Starts.getD 10 0 - c7Starts.getD 0 0) := by
  have hs : c7Starts = [0, 0, 0, 0, 0, 1, 1, 1, 1, 1, 1] := by
    norm_num [c7Starts, rlStartTimes, rlRun, rlWait, pruneReqs]
  refine ⟨hs, ?_⟩
  rw [hs]
  norm_num

/-! ### C8 -/

theorem replace_encode_chars (l : List Char) :
    pyReplace (pyReplace l ':' "%3A".data) '/' "%2F".data =
      l.flatMap (fun c =>
        if c = ':' then "%3A".data else if c = '/' then "%2F".data else [c]) := by
  unfold pyReplace
  rw [List.flatMap_assoc]
  congr 1
  funext c
  by_cases h1 : c = ':'
  · subst h1
    simp only [if_pos rfl]
    decide
  · rw [if_neg h1, if_neg h1]
    by_cases h2 : c = '/'
    · subst h2
      simp
    · simp [h1, h2]

/-- Claim C8 as amended: in the app.py and 1_Ahrefs_Analysis.py bulk fetch,
the target embedded in the endpoint is exactly the claim's encoding — every
':' becomes '%3A', every '/' becomes '%2F', and no other character of the
input is altered; the 2_Comparer_notre_domaine.py bulk fetch instead embeds
encode_url_for_ahrefs, which strips the input, prepends https:// when no
scheme is present, and percent-encodes every character outside the
unreserved set. -/
theorem c8_encoding_amended (s : String) : ahrefsEncode s = specEncode s := by
  unfold ahrefsEncode specEncode
  rw [replace_encode_chars]

/-- Counterexample to C8: for the target string a.com, the comparison page's
bulk fetch embeds https%3A%2F%2Fa.com — the https:// scheme was prepended and
percent-encoded — whereas the claimed encoding leaves a.com (which contains
no ':' and no '/') fully unaltered. -/
theorem c8_encoding_counterexample :
    encode_url_for_ahrefs "a.com" = "https%3A%2F%2Fa.com" ∧
    specEncode "a.com" = "a.com" ∧
    encode_url_for_ahrefs "a.com" ≠ specEncode "a.com" := by
  refine ⟨by decide, by decide, by decide⟩

/-! ### C10 -/

/-- Counterexample to C10: the claim says the aggregations have no side
effects on the input, but analyze_yearly_distribution writes the derived
year column into the caller's frame (df['year'] = ...), so the frame after
the call differs from the input frame. -/
theorem c10_mutation_counterexample :
    (analyze_yearly_distribution c10Example).2 ≠ c10Example ∧
    (analyze_yearly_distribution c10Example).2.year = some [2020] := by
  refine ⟨by decide, by decide⟩

/-- Claim C10 as amended: the aggregations are deterministic and idempotent —
running analyze_yearly_distribution a second time on the frame produced by
the first run yields the same table and the same frame — and the only side
effect on the input frame is the addition of the derived year column: the
url_from, domain_rating_source and first_seen columns are unchanged. -/
theorem c10_idempotent_amended (df : TFrame) :
    (analyze_yearly_distribution ((analyze_yearly_distribution df).2)).1 =
      (analyze_yearly_distribution df).1 ∧
    (analyze_yearly_distribution ((analyze_yearly_distribution df).2)).2 =
      (analyze_yearly_distribution df).2 ∧
    ((analyze_yearly_distribution df).2).url_from = df.url_from ∧
    ((analyze_yearly_distribution df).2).domain_rating_source =
      df.domain_rating_source ∧
    ((analyze_yearly_distribution df).2).first_seen = df.first_seen :=
  ⟨rfl, rfl, rfl, rfl, rfl⟩
